import Mathlib

/-!
Verification of the MultiAlignStore (src/src/AS_CNS/MultiAlignStore.h).

The store is a disk-resident, cache-backed database of MultiAlign (MA)
objects, of two kinds (unitigs and contigs).  The interface header is the
only source file present; the inline bodies in the header (the scalar
accessors and mutators of lines 129-144, and the MultiAlignR bit-field
layout of lines 171-179) are embedded directly from the source.  The
bodies of the remaining operations (insert, load, delete, nextVersion,
writeToPartitioned, metadata consolidation) live in a .C file that is not
part of the sources given, so those operations are modelled from the
specification, as marked on each definition.

Modelling conventions:
  - C doubles are modelled as rationals (exact field storage; the C
    `(int)` cast is truncation toward zero, `cIntTrunc`);
  - machine integers are Nat, with explicit `% 2^w` where the 2/1/1/10/10/40
    bit-packed fields of MultiAlignR would truncate an assigned value;
  - the data files (`dataFile[version][partition]`) are an association
    list from (version, partition) to the list of appended objects, the
    byte offset of an object being its index in that list;
  - out-of-bounds array access, undefined behaviour in C, is the `none`
    branch of Option-valued embeddings of the accessors;
  - the store models the unitig side of the two parallel tables; the
    contig table appears where a claim mentions it (contig accessors).
-/

set_option autoImplicit false

namespace MAS

universe u

variable {α : Type u}

/-! ### List helpers: defaulted indexing, in-place update, growth -/

/-- Read index `i` of `l`, returning the default `d` out of bounds
(models C array reads against a table whose tail is zero-filled). -/
def getAtD (d : α) : List α → Nat → α
  | [], _ => d
  | x :: _, 0 => x
  | _ :: xs, n + 1 => getAtD d xs n

/-- Write index `i` of `l`; no-op out of bounds. -/
def setAt : List α → Nat → α → List α
  | [], _, _ => []
  | _ :: xs, 0, a => a :: xs
  | x :: xs, n + 1, a => x :: setAt xs n a

/-- Modify index `i` of `l` with `f`; no-op out of bounds. -/
def modAt (f : α → α) : List α → Nat → List α
  | [], _ => []
  | x :: xs, 0 => f x :: xs
  | x :: xs, n + 1 => x :: modAt f xs n

/-- Extend `l` with copies of `d` until its length is at least `n`. -/
def growTo (l : List α) (n : Nat) (d : α) : List α :=
  l ++ List.replicate (n - l.length) d

/-! ### Association list from (version, partition) keys -/

/-- Look a key up in an association list, first binding wins, default `d`.
Models the lazily populated 2D table `dataFile[version][partition]`. -/
def assocGet (d : α) : List ((Nat × Nat) × α) → Nat × Nat → α
  | [], _ => d
  | (k, v) :: rest, key => if k = key then v else assocGet d rest key

/-- Bind a key (shadowing any earlier binding). -/
def assocSet (fs : List ((Nat × Nat) × α)) (key : Nat × Nat) (v : α) :
    List ((Nat × Nat) × α) :=
  (key, v) :: fs

/-! ### Data model

The enums and the `MultiAlignD` / `MultiAlignT` payload structures are
declared in `MultiAlign.h` / `AS_global.h`, which are external to the
sources given; they are modelled from the spec (a summary sub-record of
scalar statistics, and an opaque variable-size payload). -/

/-- Modelled from the spec: the unitig status enum (`UnitigStatus` of
AS_global.h, not in the sources); the scenario names `UNASSIGNED`.
`AS_UNASSIGNED` is the zero-initialized value. -/
inductive UnitigStatus where
  | AS_UNASSIGNED
  | AS_UNIQUE
  | AS_NOTREZ
  | AS_SEP
  deriving DecidableEq, Repr

/-- Modelled from the spec: the forced-unique/repeat enum (`UnitigFUR` of
AS_global.h, not in the sources). `AS_FORCED_NONE` is the
zero-initialized value. -/
inductive UnitigFUR where
  | AS_FORCED_NONE
  | AS_FORCED_UNIQUE
  | AS_FORCED_REPEAT
  deriving DecidableEq, Repr

/-- Modelled from the spec: the contig placement status enum
(`ContigPlacementStatusType` of AS_global.h, not in the sources).
`AS_UNPLACED` is the zero-initialized value. -/
inductive ContigPlacementStatusType where
  | AS_UNPLACED
  | AS_PLACED
  deriving DecidableEq, Repr

/-- Modelled from the spec: the summary sub-record `MultiAlignD` of
MultiAlign.h (not in the sources): scalar statistics readable without
loading the full payload.  C doubles are rationals here; the `(int)`
cast in `getUnitigCoverageStat` shows `unitig_coverage_stat` is a
floating-point field. -/
structure MultiAlignD where
  unitig_coverage_stat : ℚ
  unitig_microhet_prob : ℚ
  unitig_status : UnitigStatus
  unitig_unique_rept : UnitigFUR
  contig_status : ContigPlacementStatusType
  num_frags : Nat
  num_unitigs : Nat
  deriving DecidableEq, Repr

/-- The zero-initialized summary record. -/
def MultiAlignD.blank : MultiAlignD :=
  { unitig_coverage_stat := 0
    unitig_microhet_prob := 0
    unitig_status := .AS_UNASSIGNED
    unitig_unique_rept := .AS_FORCED_NONE
    contig_status := .AS_UNPLACED
    num_frags := 0
    num_unitigs := 0 }

/-- Modelled from the spec: the payload object `MultiAlignT` of
MultiAlign.h (not in the sources): an ID, the summary sub-record `data`
(mirrored by the cache-coherent mutators of the header), and an opaque
variable-size payload. -/
structure MultiAlignT where
  maID : Nat
  data : MultiAlignD
  payload : List Nat
  deriving DecidableEq, Repr

/-- Modelled from the spec: the external payload codec's deterministic
`serialize(object) → bytes`; an injective flat encoding of the object
suffices for byte-level round-trip statements. -/
def serializeMA (ma : MultiAlignT) : List ℚ :=
  (ma.maID : ℚ) :: ma.data.unitig_coverage_stat :: ma.data.unitig_microhet_prob ::
    (ma.data.num_frags : ℚ) :: (ma.data.num_unitigs : ℚ) ::
    ma.payload.map (fun b => (b : ℚ))

/-- Truncation toward zero: the semantics of the C `(int)` cast applied
to a double, as in `getUnitigCoverageStat` (header line 129). -/
def cIntTrunc (q : ℚ) : ℤ :=
  q.num.tdiv (q.den : ℤ)

/-- The bit-packed metadata record `MultiAlignR` (header lines 171-179).
Field widths: 2 unused bits, `isPresent` 1, `isDeleted` 1, `ptID` 10,
`svID` 10, `fileOffset` 40.  The narrow fields are Nat here; an
assignment into a `w`-bit field stores the value modulo `2^w`
(`bitfieldStore`). -/
structure MultiAlignR where
  mad : MultiAlignD
  isPresent : Bool
  isDeleted : Bool
  ptID : Nat
  svID : Nat
  fileOffset : Nat
  deriving DecidableEq, Repr

/-- C bit-field assignment semantics: a value stored into a `w`-bit
unsigned field is truncated modulo `2^w`. -/
def bitfieldStore (w v : Nat) : Nat :=
  v % 2 ^ w

/-- The zero-initialized metadata record (`isPresent = false`): new table
entries read back as this. -/
def MultiAlignR.blank : MultiAlignR :=
  { mad := MultiAlignD.blank
    isPresent := false
    isDeleted := false
    ptID := 0
    svID := 0
    fileOffset := 0 }

/-- Read the metadata table at an ID, zero record beyond the table. -/
def recAt (l : List MultiAlignR) (i : Nat) : MultiAlignR :=
  getAtD MultiAlignR.blank l i

/-- Read the cache array at an ID (`NULL` = `none` beyond the array). -/
def cacheAt (l : List (Option MultiAlignT)) (i : Nat) : Option MultiAlignT :=
  getAtD none l i

/-! ### The store state -/

/-- Error taxonomy of the spec (section 7): precondition violations and
the configuration error of the design notes.  I/O errors are not
reachable in this in-memory model of the file system. -/
inductive StoreError where
  | PreconditionViolation
  | ConfigurationError
  deriving DecidableEq, Repr

/-- The in-memory state of a `MultiAlignStore` (header lines 191-232)
together with its file system: `files` models the append-only
`dataFile[version][partition]` contents as lists of appended objects,
an object's `fileOffset` being its index in the owning list.  The store
models the unitig table in full; the contig table appears for its
direct scalar accessors. -/
structure Store where
  writable : Bool
  creating : Bool
  isPartitioned : Bool
  currentVersion : Nat
  unitigPartMap : List Nat
  contigPartMap : List Nat
  unitigPart : Nat
  contigPart : Nat
  utgRecord : List MultiAlignR
  utgCache : List (Option MultiAlignT)
  ctgRecord : List MultiAlignR
  ctgCache : List (Option MultiAlignT)
  files : List ((Nat × Nat) × List MultiAlignT)
  deriving DecidableEq, Repr

namespace Store

/-- `numUnitigs()` (header line 124): `utgLen` is the table length. -/
def numUnitigs (s : Store) : Nat :=
  s.utgRecord.length

/-- `numContigs()` (header line 125). -/
def numContigs (s : Store) : Nat :=
  s.ctgRecord.length

/-- Modelled from the spec: the first constructor (create).  With a
partition map the store is partitioned from the start and
`nextVersion()` is disallowed; without one it is unpartitioned. -/
def createStore (partitionMap : Option (List Nat)) : Store :=
  { writable := true
    creating := true
    isPartitioned := partitionMap.isSome
    currentVersion := 1
    unitigPartMap := partitionMap.getD []
    contigPartMap := partitionMap.getD []
    unitigPart := 0
    contigPart := 0
    utgRecord := []
    utgCache := []
    ctgRecord := []
    ctgCache := []
    files := [] }

/-- Modelled from the spec: the second constructor (open) applied to the
persisted state of `s`, restricted to unitig partition `P` (`P ≠ 0`
means only unitigs of that partition may be loaded) — the cache starts
empty; the metadata table is the one the store last wrote.  Opening
with `P ≠ 0` is an `opened partitioned` store, so `nextVersion()` is
disallowed on it. -/
def reopenRestricted (s : Store) (P : Nat) : Store :=
  { s with
    creating := false
    isPartitioned := P ≠ 0
    unitigPart := P
    utgCache := []
    ctgCache := [] }

/-- Partition map lookup: IDs beyond the dense map retain partition 0. -/
def partOf (m : List Nat) (i : Nat) : Nat :=
  getAtD 0 m i

/-- Modelled from the spec: the partition a unitig write goes to — the
read restriction overrides the partition map when one is active
(header lines 205-216: `On write, these will set or override the
setting of ptID`). -/
def effectivePartition (s : Store) (i : Nat) : Nat :=
  if s.unitigPart ≠ 0 then s.unitigPart else partOf s.unitigPartMap i

/-- Modelled from the spec: `insertMultiAlign(ma, isUnitig=true,
keepInCache)`.  Appends the payload to the data file of
`(currentVersion, effectivePartition)`, records
`(isPresent, ¬isDeleted, versionID, partitionID, fileOffset)` and the
summary fields in the metadata record (narrow fields stored with
bit-field truncation), grows the table as needed, and caches the object
iff `keepInCache`. -/
def insertMultiAlign (s : Store) (ma : MultiAlignT) (keepInCache : Bool) :
    Store :=
  let i := ma.maID
  let p := s.effectivePartition i
  let f := assocGet [] s.files (s.currentVersion, p)
  let r : MultiAlignR :=
    { mad := ma.data
      isPresent := true
      isDeleted := false
      ptID := bitfieldStore 10 p
      svID := bitfieldStore 10 s.currentVersion
      fileOffset := bitfieldStore 40 f.length }
  { s with
    utgRecord := setAt (growTo s.utgRecord (i + 1) MultiAlignR.blank) i r
    utgCache := setAt (growTo s.utgCache (i + 1) none) i
      (if keepInCache then some ma else none)
    files := assocSet s.files (s.currentVersion, p) (f ++ [ma]) }

/-- Modelled from the spec: `deleteMultiAlign(maID, isUnitig=true)` marks
the record deleted and evicts the cached copy; deleting an
already-deleted or never-present ID is a no-op, not an error. -/
def deleteMultiAlign (s : Store) (maID : Nat) : Store :=
  let r := recAt s.utgRecord maID
  if r.isPresent ∧ ¬r.isDeleted then
    { s with
      utgRecord := modAt (fun x => { x with isDeleted := true }) s.utgRecord maID
      utgCache := setAt s.utgCache maID none }
  else s

/-- Modelled from the spec: `loadMultiAlign(maID, isUnitig=true)`.
Returns null for an ID outside the active partition restriction;
otherwise returns the cached object on a cache hit, and on a miss reads
the data file recorded in the metadata (version, partition, offset)
when the record is present and not deleted; null for never-present or
deleted IDs. -/
def loadMultiAlign (s : Store) (maID : Nat) : Option MultiAlignT :=
  let r := recAt s.utgRecord maID
  if s.unitigPart ≠ 0 ∧ r.ptID ≠ s.unitigPart then none
  else
    match cacheAt s.utgCache maID with
    | some ma => some ma
    | none =>
      if r.isPresent ∧ ¬r.isDeleted then
        (assocGet [] s.files (r.svID, r.ptID)).get? r.fileOffset
      else none

/-- Modelled from the spec: `flushCache()` releases every cached object;
subsequent loads re-read from disk. -/
def flushCache (s : Store) : Store :=
  { s with
    utgCache := List.replicate s.utgCache.length none
    ctgCache := List.replicate s.ctgCache.length none }

/-- Modelled from the spec: `nextVersion()` fails with
`PreconditionViolation` on a partitioned store; otherwise moves to the
next version, leaving tables and files untouched. -/
def nextVersion (s : Store) : Except StoreError Store :=
  if s.isPartitioned then .error .PreconditionViolation
  else .ok { s with currentVersion := s.currentVersion + 1 }

/-- Modelled from the spec: `writeToPartitioned(unitigPartMap,
contigPartMap)` switches to partitioned writing; `nextVersion()` is
disallowed afterwards. -/
def writeToPartitioned (s : Store) (um cm : List Nat) : Store :=
  { s with
    isPartitioned := true
    unitigPartMap := um
    contigPartMap := cm }

/-! ### Direct scalar accessors and mutators (header lines 129-144)

These are embedded from the inline bodies in the source.  The C bodies
index `utgRecord[maID]` / `ctgRecord[maID]` with no bounds or presence
check; the `none` branch of each embedding is the out-of-bounds access
that is undefined behaviour in C. -/

/-- `getUnitigCoverageStat` (line 129): `(int)` cast of the stored
double; no bounds or presence check. -/
def getUnitigCoverageStat (s : Store) (maID : Nat) : Option ℤ :=
  (s.utgRecord.get? maID).map (fun r => cIntTrunc r.mad.unitig_coverage_stat)

/-- `getUnitigMicroHetProb` (line 130). -/
def getUnitigMicroHetProb (s : Store) (maID : Nat) : Option ℚ :=
  (s.utgRecord.get? maID).map (fun r => r.mad.unitig_microhet_prob)

/-- `getUnitigStatus` (line 131). -/
def getUnitigStatus (s : Store) (maID : Nat) : Option UnitigStatus :=
  (s.utgRecord.get? maID).map (fun r => r.mad.unitig_status)

/-- `getUnitigFUR` (line 132). -/
def getUnitigFUR (s : Store) (maID : Nat) : Option UnitigFUR :=
  (s.utgRecord.get? maID).map (fun r => r.mad.unitig_unique_rept)

/-- `getContigStatus` (line 133). -/
def getContigStatus (s : Store) (maID : Nat) : Option ContigPlacementStatusType :=
  (s.ctgRecord.get? maID).map (fun r => r.mad.contig_status)

/-- `getNumFrags` (line 136): the flag selects the table. -/
def getNumFrags (s : Store) (maID : Nat) (isUnitig : Bool) : Option Nat :=
  if isUnitig then (s.utgRecord.get? maID).map (fun r => r.mad.num_frags)
  else (s.ctgRecord.get? maID).map (fun r => r.mad.num_frags)

/-- `getNumUnitigs` (line 137): the flag selects the table. -/
def getNumUnitigs (s : Store) (maID : Nat) (isUnitig : Bool) : Option Nat :=
  if isUnitig then (s.utgRecord.get? maID).map (fun r => r.mad.num_unitigs)
  else (s.ctgRecord.get? maID).map (fun r => r.mad.num_unitigs)

/-- `setUnitigCoverageStat` (line 139): writes the metadata record and
mirrors the write into the cached object if one is resident; no bounds
check (the `none` branch is the C out-of-bounds write). -/
def setUnitigCoverageStat (s : Store) (maID : Nat) (cs : ℚ) : Option Store :=
  if maID < s.utgRecord.length then
    some { s with
      utgRecord := modAt
        (fun r => { r with mad := { r.mad with unitig_coverage_stat := cs } })
        s.utgRecord maID
      utgCache := modAt
        (fun c => c.map (fun ma =>
          { ma with data := { ma.data with unitig_coverage_stat := cs } }))
        s.utgCache maID }
  else none

/-- `setUnitigMicroHetProb` (line 140). -/
def setUnitigMicroHetProb (s : Store) (maID : Nat) (mp : ℚ) : Option Store :=
  if maID < s.utgRecord.length then
    some { s with
      utgRecord := modAt
        (fun r => { r with mad := { r.mad with unitig_microhet_prob := mp } })
        s.utgRecord maID
      utgCache := modAt
        (fun c => c.map (fun ma =>
          { ma with data := { ma.data with unitig_microhet_prob := mp } }))
        s.utgCache maID }
  else none

/-- `setUnitigStatus` (line 141). -/
def setUnitigStatus (s : Store) (maID : Nat) (status : UnitigStatus) :
    Option Store :=
  if maID < s.utgRecord.length then
    some { s with
      utgRecord := modAt
        (fun r => { r with mad := { r.mad with unitig_status := status } })
        s.utgRecord maID
      utgCache := modAt
        (fun c => c.map (fun ma =>
          { ma with data := { ma.data with unitig_status := status } }))
        s.utgCache maID }
  else none

/-- `setUnitigFUR` (line 142). -/
def setUnitigFUR (s : Store) (maID : Nat) (fur : UnitigFUR) : Option Store :=
  if maID < s.utgRecord.length then
    some { s with
      utgRecord := modAt
        (fun r => { r with mad := { r.mad with unitig_unique_rept := fur } })
        s.utgRecord maID
      utgCache := modAt
        (fun c => c.map (fun ma =>
          { ma with data := { ma.data with unitig_unique_rept := fur } }))
        s.utgCache maID }
  else none

/-- `setContigStatus` (line 144). -/
def setContigStatus (s : Store) (maID : Nat)
    (status : ContigPlacementStatusType) : Option Store :=
  if maID < s.ctgRecord.length then
    some { s with
      ctgRecord := modAt
        (fun r => { r with mad := { r.mad with contig_status := status } })
        s.ctgRecord maID
      ctgCache := modAt
        (fun c => c.map (fun ma =>
          { ma with data := { ma.data with contig_status := status } }))
        s.ctgCache maID }
  else none

end Store

/-! ### Consolidation of partitioned metadata and configuration bounds -/

/-- Look a partition's metadata table up among the per-partition files
of one version. -/
def lookupTable (tables : List (Nat × List MultiAlignR)) (p : Nat) :
    Option (List MultiAlignR) :=
  match tables with
  | [] => none
  | (q, tbl) :: rest => if q = p then some tbl else lookupTable rest p

/-- Modelled from the spec: the entry consolidation selects for one ID —
the entry of the partition that authoritatively owns the ID under the
partition map, provided its `versionID` is the requested version and
its `partitionID` is that partition; not-present otherwise. -/
def ownEntry (version : Nat) (partMap : List Nat)
    (tables : List (Nat × List MultiAlignR)) (i : Nat) : MultiAlignR :=
  let p := Store.partOf partMap i
  match lookupTable tables p with
  | none => MultiAlignR.blank
  | some tbl =>
    let e := recAt tbl i
    if e.svID = version ∧ e.ptID = p then e else MultiAlignR.blank

/-- Modelled from the spec: `loadMASR` consolidation for an
unpartitioned open — merge all partition metadata files of the
requested version, entry by entry. -/
def consolidate (version : Nat) (partMap : List Nat)
    (tables : List (Nat × List MultiAlignR)) (len : Nat) :
    List MultiAlignR :=
  (List.range len).map (ownEntry version partMap tables)

/-- Modelled from the spec: opening unpartitioned (`partition = 0`) at a
version: the unitig table is the consolidation of the per-partition
metadata files; no read restriction; the cache starts empty. -/
def openUnpartitioned (version : Nat) (partMap : List Nat)
    (tables : List (Nat × List MultiAlignR)) (len : Nat)
    (files : List ((Nat × Nat) × List MultiAlignT)) : Store :=
  { writable := false
    creating := false
    isPartitioned := false
    currentVersion := version
    unitigPartMap := partMap
    contigPartMap := []
    unitigPart := 0
    contigPart := 0
    utgRecord := consolidate version partMap tables len
    utgCache := []
    ctgRecord := []
    ctgCache := []
    files := files }

/-- Modelled from the spec: the store-creation configuration check of
the design notes — version and partition counts bounded by the 10-bit
fields, addressable file size by the 40-bit offset; exceeding any bound
is a configuration error, not a silent wraparound. -/
def checkStoreConfig (version partitions fileSize : Nat) :
    Except StoreError Unit :=
  if 2 ^ 10 ≤ version ∨ 2 ^ 10 ≤ partitions ∨ 2 ^ 40 ≤ fileSize then
    .error .ConfigurationError
  else .ok ()


/-! ### Concrete scenarios from the spec (inputs for witnesses) -/

/-- The spec scenario unitig: ID 5, coverage stat 3.2, status UNASSIGNED. -/
def exMA5 : MultiAlignT :=
  { maID := 5
    data := { MultiAlignD.blank with
              unitig_coverage_stat := mkRat 16 5
              unitig_status := .AS_UNASSIGNED }
    payload := [3, 1, 4] }

/-- The scenario store: created unpartitioned, unitig 5 inserted with
`keepInCache = true`. -/
def exCached : Store :=
  (Store.createStore none).insertMultiAlign exMA5 true

/-- The scenario store after `setUnitigCoverageStat(5, 7.1)`. -/
def exCachedSet : Store :=
  (exCached.setUnitigCoverageStat 5 (mkRat 71 10)).getD exCached

/-- Unitig A of the partition-isolation scenario (partition 1). -/
def exMAa : MultiAlignT :=
  { maID := 0, data := MultiAlignD.blank, payload := [10] }

/-- Unitig B of the partition-isolation scenario (partition 2). -/
def exMAb : MultiAlignT :=
  { maID := 1, data := MultiAlignD.blank, payload := [20] }

/-- A store created partitioned with map `{A ↦ 1, B ↦ 2}`, A and B
inserted (A lands in partition 1, B in partition 2). -/
def exPartStore : Store :=
  ((Store.createStore (some [1, 2])).insertMultiAlign exMAa false).insertMultiAlign
    exMAb false

/-- Partition 1's metadata file of the consolidation scenario: it owns
ID 0 at version 3. -/
def exT1 : List MultiAlignR :=
  [{ MultiAlignR.blank with
     mad := exMAa.data, isPresent := true, ptID := 1, svID := 3, fileOffset := 0 },
   MultiAlignR.blank, MultiAlignR.blank]

/-- Partition 2's metadata file of the consolidation scenario: it owns
ID 1 at version 3. -/
def exT2 : List MultiAlignR :=
  [MultiAlignR.blank,
   { MultiAlignR.blank with
     mad := exMAb.data, isPresent := true, ptID := 2, svID := 3, fileOffset := 0 },
   MultiAlignR.blank]

/-- The data files of the consolidation scenario. -/
def exFiles : List ((Nat × Nat) × List MultiAlignT) :=
  [((3, 1), [exMAa]), ((3, 2), [exMAb])]

/-- The consolidation scenario's unpartitioned open at version 3 with
partition map `{0 ↦ 1, 1 ↦ 2}` over three IDs. -/
def exMerged : Store :=
  openUnpartitioned 3 [1, 2] [(1, exT1), (2, exT2)] 3 exFiles

/-- The scenario store after an uncached insert of unitig 5. -/
def exInserted : Store :=
  (Store.createStore none).insertMultiAlign exMA5 false

/-- The scenario store after `nextVersion()` on `exInserted`. -/
def exAdvanced : Store :=
  { exInserted with currentVersion := exInserted.currentVersion + 1 }

/-! ### Lemmas about the list and table helpers -/

@[simp] theorem length_setAt (l : List α) (i : Nat) (a : α) :
    (setAt l i a).length = l.length := by
  induction l generalizing i with
  | nil => rfl
  | cons x xs ih =>
    cases i with
    | zero => rfl
    | succ n => simp [setAt, ih]

@[simp] theorem length_modAt (f : α → α) (l : List α) (i : Nat) :
    (modAt f l i).length = l.length := by
  induction l generalizing i with
  | nil => rfl
  | cons x xs ih =>
    cases i with
    | zero => rfl
    | succ n => simp [modAt, ih]

theorem length_growTo (l : List α) (n : Nat) (d : α) :
    (growTo l n d).length = max l.length n := by
  simp [growTo]
  omega

theorem getAtD_setAt_self (d : α) (l : List α) (i : Nat) (a : α)
    (h : i < l.length) : getAtD d (setAt l i a) i = a := by
  induction l generalizing i with
  | nil => simp at h
  | cons x xs ih =>
    cases i with
    | zero => rfl
    | succ n =>
      simp only [List.length_cons] at h
      exact ih n (by omega)

theorem getAtD_setAt_ne (d : α) (l : List α) (i j : Nat) (a : α)
    (h : i ≠ j) : getAtD d (setAt l i a) j = getAtD d l j := by
  induction l generalizing i j with
  | nil => rfl
  | cons x xs ih =>
    cases i with
    | zero =>
      cases j with
      | zero => exact absurd rfl h
      | succ m => rfl
    | succ n =>
      cases j with
      | zero => rfl
      | succ m => exact ih n m (by omega)

theorem getAtD_modAt_self (d : α) (f : α → α) (l : List α) (i : Nat)
    (h : i < l.length) : getAtD d (modAt f l i) i = f (getAtD d l i) := by
  induction l generalizing i with
  | nil => simp at h
  | cons x xs ih =>
    cases i with
    | zero => rfl
    | succ n =>
      simp only [List.length_cons] at h
      exact ih n (by omega)

theorem getAtD_modAt_ne (d : α) (f : α → α) (l : List α) (i j : Nat)
    (h : i ≠ j) : getAtD d (modAt f l i) j = getAtD d l j := by
  induction l generalizing i j with
  | nil => rfl
  | cons x xs ih =>
    cases i with
    | zero =>
      cases j with
      | zero => exact absurd rfl h
      | succ m => rfl
    | succ n =>
      cases j with
      | zero => rfl
      | succ m => exact ih n m (by omega)

theorem getAtD_append_left (d : α) (l t : List α) (i : Nat)
    (h : i < l.length) : getAtD d (l ++ t) i = getAtD d l i := by
  induction l generalizing i with
  | nil => simp at h
  | cons x xs ih =>
    cases i with
    | zero => rfl
    | succ n =>
      simp only [List.length_cons] at h
      exact ih n (by omega)

theorem getAtD_replicate (d a : α) (m i : Nat) :
    getAtD d (List.replicate m a) i = if i < m then a else d := by
  induction m generalizing i with
  | zero => cases i <;> rfl
  | succ k ih =>
    cases i with
    | zero => simp [List.replicate_succ, getAtD]
    | succ n =>
      simp only [List.replicate_succ, getAtD, ih]
      by_cases h : n < k
      · simp [h, Nat.succ_lt_succ h]
      · simp [h, fun hc => h (Nat.lt_of_succ_lt_succ hc)]

theorem getAtD_growTo_lt (d : α) (l : List α) (n i : Nat)
    (h : i < l.length) : getAtD d (growTo l n d) i = getAtD d l i :=
  getAtD_append_left d l _ i h

theorem getAtD_append_replicate_ge (d : α) (l : List α) (m i : Nat)
    (h : l.length ≤ i) : getAtD d (l ++ List.replicate m d) i = d := by
  induction l generalizing i with
  | nil =>
    simp only [List.nil_append]
    rw [getAtD_replicate]
    split <;> rfl
  | cons x xs ih =>
    cases i with
    | zero => simp at h
    | succ j =>
      simp only [List.length_cons] at h
      exact ih j (by omega)

theorem getAtD_growTo_ge (d : α) (l : List α) (n i : Nat)
    (h : l.length ≤ i) : getAtD d (growTo l n d) i = d :=
  getAtD_append_replicate_ge d l _ i h

theorem getAtD_out_of_range (d : α) (l : List α) (i : Nat)
    (h : l.length ≤ i) : getAtD d l i = d := by
  induction l generalizing i with
  | nil => rfl
  | cons x xs ih =>
    cases i with
    | zero => simp at h
    | succ m =>
      simp only [List.length_cons] at h
      exact ih m (by omega)

@[simp] theorem assocGet_assocSet_self (d : α) (fs : List ((Nat × Nat) × α))
    (key : Nat × Nat) (v : α) : assocGet d (assocSet fs key v) key = v := by
  simp [assocGet, assocSet]

theorem assocGet_assocSet_ne (d : α) (fs : List ((Nat × Nat) × α))
    (key key' : Nat × Nat) (v : α) (h : key ≠ key') :
    assocGet d (assocSet fs key v) key' = assocGet d fs key' := by
  simp [assocGet, assocSet, h]

/-! ### Bridging lemmas between defaulted reads and checked reads -/

theorem get?_eq_some_getAtD (d : α) (l : List α) (i : Nat)
    (h : i < l.length) : l.get? i = some (getAtD d l i) := by
  induction l generalizing i with
  | nil => simp at h
  | cons x xs ih =>
    cases i with
    | zero => rfl
    | succ n =>
      simp only [List.length_cons] at h
      exact ih n (by omega)

theorem get?_eq_none_of_le (l : List α) (i : Nat)
    (h : l.length ≤ i) : l.get? i = none := by
  induction l generalizing i with
  | nil => rfl
  | cons x xs ih =>
    cases i with
    | zero => simp at h
    | succ n =>
      simp only [List.length_cons] at h
      exact ih n (by omega)

theorem getAtD_eq_get? (d : α) (l : List α) (i : Nat) :
    getAtD d l i = (l.get? i).getD d := by
  induction l generalizing i with
  | nil => rfl
  | cons x xs ih =>
    cases i with
    | zero => rfl
    | succ n => exact ih n

theorem lt_length_of_getAtD_some {β : Type u} (l : List (Option β)) (i : Nat)
    (x : β) (h : getAtD none l i = some x) : i < l.length := by
  by_contra hc
  rw [getAtD_out_of_range none l i (by omega)] at h
  exact Option.noConfusion h

@[simp] theorem length_consolidate (version : Nat) (partMap : List Nat)
    (tables : List (Nat × List MultiAlignR)) (len : Nat) :
    (consolidate version partMap tables len).length = len := by
  simp [consolidate]

theorem recAt_consolidate (version : Nat) (partMap : List Nat)
    (tables : List (Nat × List MultiAlignR)) (len i : Nat) (h : i < len) :
    recAt (consolidate version partMap tables len) i =
      ownEntry version partMap tables i := by
  unfold recAt consolidate
  rw [getAtD_eq_get? , List.get?_map, List.get?_range h]
  rfl

theorem recAt_consolidate_ge (version : Nat) (partMap : List Nat)
    (tables : List (Nat × List MultiAlignR)) (len i : Nat) (h : len ≤ i) :
    recAt (consolidate version partMap tables len) i = MultiAlignR.blank := by
  unfold recAt
  exact getAtD_out_of_range _ _ _ (by simpa using h)


/-! ### Characterizations of loadMultiAlign -/

/-- A load outside the active partition restriction returns null. -/
theorem loadMultiAlign_restricted_none (s : Store) (i : Nat)
    (h0 : s.unitigPart ≠ 0)
    (hne : (recAt s.utgRecord i).ptID ≠ s.unitigPart) :
    s.loadMultiAlign i = none := by
  simp only [Store.loadMultiAlign]
  rw [if_pos ⟨h0, hne⟩]

/-- An accessible cached ID loads as a cache hit. -/
theorem loadMultiAlign_cache_hit (s : Store) (i : Nat) (ma : MultiAlignT)
    (hp : s.unitigPart = 0 ∨ (recAt s.utgRecord i).ptID = s.unitigPart)
    (hc : cacheAt s.utgCache i = some ma) :
    s.loadMultiAlign i = some ma := by
  have hguard : ¬(s.unitigPart ≠ 0 ∧ (recAt s.utgRecord i).ptID ≠ s.unitigPart) := by
    rcases hp with hp | hp
    · exact fun hcon => hcon.1 hp
    · exact fun hcon => hcon.2 hp
  simp only [Store.loadMultiAlign]
  rw [if_neg hguard, hc]

/-- An accessible, present, not-deleted, uncached ID loads from the data
file recorded in its metadata record. -/
theorem loadMultiAlign_from_file (s : Store) (i : Nat)
    (hp : s.unitigPart = 0 ∨ (recAt s.utgRecord i).ptID = s.unitigPart)
    (hc : cacheAt s.utgCache i = none)
    (hpres : (recAt s.utgRecord i).isPresent = true)
    (hdel : (recAt s.utgRecord i).isDeleted = false) :
    s.loadMultiAlign i =
      (assocGet [] s.files
        ((recAt s.utgRecord i).svID, (recAt s.utgRecord i).ptID)).get?
        (recAt s.utgRecord i).fileOffset := by
  have hguard : ¬(s.unitigPart ≠ 0 ∧ (recAt s.utgRecord i).ptID ≠ s.unitigPart) := by
    rcases hp with hp | hp
    · exact fun hcon => hcon.1 hp
    · exact fun hcon => hcon.2 hp
  simp only [Store.loadMultiAlign]
  rw [if_neg hguard, hc]
  simp [hpres, hdel]

/-- An uncached ID that is never-present or deleted loads as null. -/
theorem loadMultiAlign_not_live_none (s : Store) (i : Nat)
    (hc : cacheAt s.utgCache i = none)
    (h : (recAt s.utgRecord i).isPresent = false ∨
         (recAt s.utgRecord i).isDeleted = true) :
    s.loadMultiAlign i = none := by
  simp only [Store.loadMultiAlign]
  by_cases hguard : s.unitigPart ≠ 0 ∧ (recAt s.utgRecord i).ptID ≠ s.unitigPart
  · rw [if_pos hguard]
  · rw [if_neg hguard, hc]
    rcases h with h | h <;> simp [h]

/-! ### Claim C1: cache/metadata coherence of the coverage-stat mutator -/

/-- C1 (amended): for a cached unitig ID that passes the active partition
restriction, `setUnitigCoverageStat(i, v)` updates both the metadata
record and the cached object, so a subsequent `loadMultiAlign(i)` (a
cache hit) returns an object whose coverage stat equals `v`; but
`getUnitigCoverageStat(i)` returns the integer truncation of `v` (the
`(int)` cast of header line 129), which differs from `v` whenever `v`
is not an integer. -/
theorem setUnitigCoverageStat_cache_coherent (s : Store) (i : Nat) (v : ℚ)
    (ma : MultiAlignT) (t : Store)
    (hc : cacheAt s.utgCache i = some ma)
    (hp : s.unitigPart = 0 ∨ (recAt s.utgRecord i).ptID = s.unitigPart)
    (hs : s.setUnitigCoverageStat i v = some t) :
    (t.loadMultiAlign i).map (fun x => x.data.unitig_coverage_stat) = some v ∧
    t.getUnitigCoverageStat i = some (cIntTrunc v) := by
  unfold Store.setUnitigCoverageStat at hs
  by_cases h : i < s.utgRecord.length
  · rw [if_pos h] at hs
    injection hs with h2
    subst h2
    have hlen : i < s.utgCache.length := lt_length_of_getAtD_some _ i ma hc
    have hcache : cacheAt (modAt
        (fun c => c.map (fun x =>
          { x with data := { x.data with unitig_coverage_stat := v } }))
        s.utgCache i) i =
        some { ma with data := { ma.data with unitig_coverage_stat := v } } := by
      unfold cacheAt at hc ⊢
      rw [getAtD_modAt_self _ _ _ _ hlen, hc]
      rfl
    have hrec : recAt (modAt
        (fun r => { r with mad := { r.mad with unitig_coverage_stat := v } })
        s.utgRecord i) i =
        { recAt s.utgRecord i with
          mad := { (recAt s.utgRecord i).mad with unitig_coverage_stat := v } } := by
      unfold recAt
      exact getAtD_modAt_self _ _ _ _ h
    have hpt : (recAt (modAt
        (fun r => { r with mad := { r.mad with unitig_coverage_stat := v } })
        s.utgRecord i) i).ptID = (recAt s.utgRecord i).ptID := by
      rw [hrec]
    constructor
    · rw [loadMultiAlign_cache_hit _ i
        { ma with data := { ma.data with unitig_coverage_stat := v } }
        (by rcases hp with hp | hp
            · exact Or.inl hp
            · exact Or.inr (by rw [hpt]; exact hp))
        hcache]
      rfl
    · show ((modAt
        (fun r => { r with mad := { r.mad with unitig_coverage_stat := v } })
        s.utgRecord i).get? i).map
          (fun r => cIntTrunc r.mad.unitig_coverage_stat) = some (cIntTrunc v)
      rw [get?_eq_some_getAtD MultiAlignR.blank _ i (by simpa using h)]
      show some (cIntTrunc (recAt (modAt
        (fun r => { r with mad := { r.mad with unitig_coverage_stat := v } })
        s.utgRecord i) i).mad.unitig_coverage_stat) = some (cIntTrunc v)
      rw [hrec]
  · rw [if_neg h] at hs
    exact absurd hs (by simp)

/-- C1 counterexample: after inserting unitig 5 with `keepInCache = true`
and calling `setUnitigCoverageStat(5, 7.1)`, the loaded object's
coverage stat is 7.1 but `getUnitigCoverageStat(5)` is the `int` 7
(header line 129 casts the double to `int`), so the two are not equal
as the claim requires. -/
theorem getUnitigCoverageStat_cast_counterexample :
    (exCachedSet.loadMultiAlign 5).map (fun x => x.data.unitig_coverage_stat) =
      some (mkRat 71 10) ∧
    exCachedSet.getUnitigCoverageStat 5 = some 7 ∧
    ((7 : ℤ) : ℚ) ≠ mkRat 71 10 := by
  refine ⟨by decide, by decide, by decide⟩

/-- C1 witness: the amended theorem applied to the spec's scenario. -/
theorem setUnitigCoverageStat_cache_coherent_witness :
    (exCachedSet.loadMultiAlign 5).map (fun x => x.data.unitig_coverage_stat) =
      some (mkRat 71 10) ∧
    exCachedSet.getUnitigCoverageStat 5 = some (cIntTrunc (mkRat 71 10)) :=
  setUnitigCoverageStat_cache_coherent exCached 5 (mkRat 71 10) exMA5 exCachedSet
    (by decide) (Or.inl (by decide)) (by decide)

/-! ### Claim C2: partition isolation -/

/-- C2: on a store opened with a non-zero partition restriction,
`loadMultiAlign` returns null for every ID whose current partition
differs from the restriction, and returns the recorded object for
every present, non-deleted, uncached ID whose partition equals the
restriction. -/
theorem loadMultiAlign_partition_isolation (s : Store) (P i : Nat)
    (hP : P ≠ 0) (hres : s.unitigPart = P) :
    ((recAt s.utgRecord i).ptID ≠ P → s.loadMultiAlign i = none) ∧
    (∀ ma : MultiAlignT,
      (recAt s.utgRecord i).ptID = P →
      (recAt s.utgRecord i).isPresent = true →
      (recAt s.utgRecord i).isDeleted = false →
      cacheAt s.utgCache i = none →
      (assocGet [] s.files
        ((recAt s.utgRecord i).svID, (recAt s.utgRecord i).ptID)).get?
        (recAt s.utgRecord i).fileOffset = some ma →
      s.loadMultiAlign i = some ma) := by
  constructor
  · intro hne
    exact loadMultiAlign_restricted_none s i (by rw [hres]; exact hP)
      (by rw [hres]; exact hne)
  · intro ma hpt hpres hdel hc hfile
    rw [loadMultiAlign_from_file s i (Or.inr (by rw [hpt, hres])) hc hpres hdel,
      hfile]

/-- C2 witness: with partition map `{A ↦ 1, B ↦ 2}`, the store opened at
partition 1 returns A and not B; opened at partition 2, B and not A. -/
theorem loadMultiAlign_partition_isolation_witness :
    (exPartStore.reopenRestricted 1).loadMultiAlign 0 = some exMAa ∧
    (exPartStore.reopenRestricted 1).loadMultiAlign 1 = none ∧
    (exPartStore.reopenRestricted 2).loadMultiAlign 1 = some exMAb ∧
    (exPartStore.reopenRestricted 2).loadMultiAlign 0 = none :=
  ⟨(loadMultiAlign_partition_isolation (exPartStore.reopenRestricted 1) 1 0
      (by decide) (by decide)).2 exMAa
      (by decide) (by decide) (by decide) (by decide) (by decide),
   (loadMultiAlign_partition_isolation (exPartStore.reopenRestricted 1) 1 1
      (by decide) (by decide)).1 (by decide),
   (loadMultiAlign_partition_isolation (exPartStore.reopenRestricted 2) 2 1
      (by decide) (by decide)).2 exMAb
      (by decide) (by decide) (by decide) (by decide) (by decide),
   (loadMultiAlign_partition_isolation (exPartStore.reopenRestricted 2) 2 0
      (by decide) (by decide)).1 (by decide)⟩

/-! ### Insert helper lemmas (shared) -/

/-- After an insert, the inserted ID's metadata record holds the summary
fields and the (version, partition, offset) of that write. -/
theorem insertMultiAlign_recAt_self (s : Store) (ma : MultiAlignT) (keep : Bool) :
    recAt ((s.insertMultiAlign ma keep).utgRecord) ma.maID =
      { mad := ma.data
        isPresent := true
        isDeleted := false
        ptID := bitfieldStore 10 (s.effectivePartition ma.maID)
        svID := bitfieldStore 10 s.currentVersion
        fileOffset := bitfieldStore 40
          (assocGet [] s.files
            (s.currentVersion, s.effectivePartition ma.maID)).length } := by
  unfold Store.insertMultiAlign
  simp only
  unfold recAt
  apply getAtD_setAt_self
  rw [length_growTo]
  exact Nat.lt_of_lt_of_le (Nat.lt_succ_self _) (Nat.le_max_right _ _)

/-- After an insert, the (version, partition) data file has the object
appended at its end. -/
theorem insertMultiAlign_files_self (s : Store) (ma : MultiAlignT) (keep : Bool) :
    assocGet [] ((s.insertMultiAlign ma keep).files)
      (s.currentVersion, s.effectivePartition ma.maID) =
      assocGet [] s.files (s.currentVersion, s.effectivePartition ma.maID)
        ++ [ma] := by
  unfold Store.insertMultiAlign
  simp only
  rw [assocGet_assocSet_self]

/-- After an insert, the inserted ID's cache slot holds the object iff
`keepInCache`. -/
theorem insertMultiAlign_cacheAt_self (s : Store) (ma : MultiAlignT) (keep : Bool) :
    cacheAt ((s.insertMultiAlign ma keep).utgCache) ma.maID =
      (if keep then some ma else none) := by
  unfold Store.insertMultiAlign
  simp only
  unfold cacheAt
  apply getAtD_setAt_self
  rw [length_growTo]
  exact Nat.lt_of_lt_of_le (Nat.lt_succ_self _) (Nat.le_max_right _ _)

/-! ### Claim C3: nextVersion precondition and version targeting -/

/-- C3: `nextVersion()` fails with `PreconditionViolation` exactly on a
partitioned store (a partition map supplied at construction, the store
opened restricted to a partition, or `writeToPartitioned` called);
otherwise it increments `currentVersion` by one, every subsequent
insert targets the new version's data file and records the new version
in the metadata record, and loads (hence IDs not rewritten) are
unaffected by the version change, still resolving through the version
that last wrote them. -/
theorem nextVersion_spec (s : Store) (m um cm : List Nat) (P : Nat) :
    (s.nextVersion = .error .PreconditionViolation ↔ s.isPartitioned = true) ∧
    (s.isPartitioned = false →
      s.nextVersion = .ok { s with currentVersion := s.currentVersion + 1 }) ∧
    ((Store.createStore (some m)).isPartitioned = true) ∧
    ((Store.createStore none).isPartitioned = false) ∧
    ((s.writeToPartitioned um cm).isPartitioned = true) ∧
    ((s.reopenRestricted P).isPartitioned = decide (P ≠ 0)) ∧
    (∀ t : Store, s.nextVersion = .ok t →
      t.currentVersion = s.currentVersion + 1 ∧
      (∀ ma keep,
        (recAt ((t.insertMultiAlign ma keep).utgRecord) ma.maID).svID =
          bitfieldStore 10 (s.currentVersion + 1) ∧
        assocGet [] ((t.insertMultiAlign ma keep).files)
            (s.currentVersion + 1, t.effectivePartition ma.maID) =
          assocGet [] s.files (s.currentVersion + 1, t.effectivePartition ma.maID)
            ++ [ma]) ∧
      (∀ i, t.loadMultiAlign i = s.loadMultiAlign i)) := by
  refine ⟨?_, ?_, rfl, rfl, rfl, rfl, ?_⟩
  · unfold Store.nextVersion
    cases hb : s.isPartitioned <;> simp [hb]
  · intro hb
    unfold Store.nextVersion
    simp [hb]
  · intro t ht
    unfold Store.nextVersion at ht
    cases hb : s.isPartitioned
    · rw [hb] at ht
      simp only [Bool.false_eq_true, if_false, Except.ok.injEq] at ht
      subst ht
      refine ⟨rfl, ?_, fun i => rfl⟩
      intro ma keep
      constructor
      · rw [insertMultiAlign_recAt_self]
      · rw [insertMultiAlign_files_self]
    · rw [hb] at ht
      simp at ht

/-- C3 witness: a store created with a partition map refuses
`nextVersion()`, an unpartitioned store advances from version 1 to 2. -/
theorem nextVersion_spec_witness :
    (Store.createStore (some [1])).nextVersion =
      .error .PreconditionViolation ∧
    (Store.createStore none).nextVersion =
      .ok { Store.createStore none with currentVersion := 2 } :=
  ⟨(nextVersion_spec (Store.createStore (some [1])) [1] [] [] 0).1.mpr rfl,
   (nextVersion_spec (Store.createStore none) [] [] [] 0).2.1 rfl⟩

/-! ### Claim C4: delete is idempotent -/

/-- Deleting a never-present or already-deleted ID is a no-op. -/
theorem deleteMultiAlign_eq_of_not_live (s : Store) (i : Nat)
    (h : (recAt s.utgRecord i).isPresent = false ∨
         (recAt s.utgRecord i).isDeleted = true) :
    s.deleteMultiAlign i = s := by
  unfold Store.deleteMultiAlign
  simp only
  rw [if_neg]
  rcases h with h | h
  · intro hcon
    rw [h] at hcon
    exact Bool.false_ne_true hcon.1
  · exact fun hcon => hcon.2 (by rw [h])

/-- Deleting a present, not-deleted ID marks it deleted and evicts it. -/
theorem deleteMultiAlign_live (s : Store) (i : Nat)
    (hp : (recAt s.utgRecord i).isPresent = true)
    (hd : (recAt s.utgRecord i).isDeleted = false) :
    s.deleteMultiAlign i =
      { s with
        utgRecord := modAt (fun x => { x with isDeleted := true }) s.utgRecord i
        utgCache := setAt s.utgCache i none } := by
  unfold Store.deleteMultiAlign
  simp only
  rw [if_pos ⟨hp, by simp [hd]⟩]

/-- A present record's index is inside the table. -/
theorem lt_length_of_isPresent (l : List MultiAlignR) (i : Nat)
    (h : (recAt l i).isPresent = true) : i < l.length := by
  by_contra hc
  unfold recAt at h
  rw [getAtD_out_of_range _ _ _ (by omega)] at h
  exact Bool.false_ne_true h

/-- Evicting slot `i` leaves slot `i` empty, inside the array or out. -/
theorem cacheAt_setAt_none (l : List (Option MultiAlignT)) (i : Nat) :
    cacheAt (setAt l i none) i = none := by
  by_cases h : i < l.length
  · unfold cacheAt
    rw [getAtD_setAt_self _ _ _ _ h]
  · unfold cacheAt
    rw [getAtD_out_of_range _ _ _ (by rw [length_setAt]; omega)]

/-- C4: `deleteMultiAlign` is idempotent — deleting twice equals deleting
once; after a delete, a load of the ID returns null; deleting a
never-present ID is a no-op; and for an ID present before deletion the
record afterwards has `isDeleted = true` with `isPresent` still true. -/
theorem deleteMultiAlign_idempotent (s : Store) (i : Nat)
    (hwf : cacheAt s.utgCache i = none ∨
      ((recAt s.utgRecord i).isPresent = true ∧
       (recAt s.utgRecord i).isDeleted = false)) :
    (s.deleteMultiAlign i).deleteMultiAlign i = s.deleteMultiAlign i ∧
    (s.deleteMultiAlign i).loadMultiAlign i = none ∧
    ((recAt s.utgRecord i).isPresent = false → s.deleteMultiAlign i = s) ∧
    ((recAt s.utgRecord i).isPresent = true →
      (recAt ((s.deleteMultiAlign i).utgRecord) i).isDeleted = true ∧
      (recAt ((s.deleteMultiAlign i).utgRecord) i).isPresent = true) := by
  by_cases hl : (recAt s.utgRecord i).isPresent = true ∧
      (recAt s.utgRecord i).isDeleted = false
  · have hlen : i < s.utgRecord.length := lt_length_of_isPresent _ _ hl.1
    have heq := deleteMultiAlign_live s i hl.1 hl.2
    have hafter : recAt ((s.deleteMultiAlign i).utgRecord) i =
        { recAt s.utgRecord i with isDeleted := true } := by
      rw [heq]
      unfold recAt
      exact getAtD_modAt_self _ _ _ _ hlen
    refine ⟨?_, ?_, ?_, ?_⟩
    · exact deleteMultiAlign_eq_of_not_live _ i (Or.inr (by rw [hafter]))
    · apply loadMultiAlign_not_live_none
      · rw [heq]
        exact cacheAt_setAt_none s.utgCache i
      · exact Or.inr (by rw [hafter])
    · intro hnp
      rw [hnp] at hl
      exact absurd hl.1 Bool.false_ne_true
    · intro _
      rw [hafter]
      exact ⟨rfl, hl.1⟩
  · have hnl : (recAt s.utgRecord i).isPresent = false ∨
        (recAt s.utgRecord i).isDeleted = true := by
      cases hb1 : (recAt s.utgRecord i).isPresent
      · exact Or.inl rfl
      · cases hb2 : (recAt s.utgRecord i).isDeleted
        · exact absurd ⟨hb1, hb2⟩ hl
        · exact Or.inr rfl
    have heq := deleteMultiAlign_eq_of_not_live s i hnl
    have hcn : cacheAt s.utgCache i = none := by
      rcases hwf with hwf | hwf
      · exact hwf
      · exact absurd hwf hl
    refine ⟨?_, ?_, fun _ => heq, ?_⟩
    · rw [heq]
      exact heq
    · rw [heq]
      exact loadMultiAlign_not_live_none s i hcn hnl
    · intro hp
      rw [heq]
      rcases hnl with hnl | hnl
      · exact absurd hp (by rw [hnl]; exact Bool.false_ne_true)
      · exact ⟨hnl, hp⟩

/-- C4 witness: deletion of the cached scenario unitig 5. -/
theorem deleteMultiAlign_idempotent_witness :
    (exCached.deleteMultiAlign 5).deleteMultiAlign 5 =
      exCached.deleteMultiAlign 5 ∧
    (exCached.deleteMultiAlign 5).loadMultiAlign 5 = none ∧
    ((recAt exCached.utgRecord 5).isPresent = false →
      exCached.deleteMultiAlign 5 = exCached) ∧
    ((recAt exCached.utgRecord 5).isPresent = true →
      (recAt ((exCached.deleteMultiAlign 5).utgRecord) 5).isDeleted = true ∧
      (recAt ((exCached.deleteMultiAlign 5).utgRecord) 5).isPresent = true) :=
  deleteMultiAlign_idempotent exCached 5 (Or.inr (by decide))

/-! ### Claim C5: insert/load round-trip -/

/-- C5: an object inserted with `keepInCache = false` and then loaded
under the same ID comes back with identical serialized bytes (the
payload codec's deterministic serialize), provided version, partition
and offset are within their configured field bounds. -/
theorem insert_load_roundtrip (s : Store) (ma : MultiAlignT)
    (hv : s.currentVersion < 2 ^ 10)
    (hp : s.effectivePartition ma.maID < 2 ^ 10)
    (hoff : (assocGet [] s.files
      (s.currentVersion, s.effectivePartition ma.maID)).length < 2 ^ 40) :
    ((s.insertMultiAlign ma false).loadMultiAlign ma.maID).map serializeMA =
      some (serializeMA ma) := by
  have hrec := insertMultiAlign_recAt_self s ma false
  have hcache : cacheAt ((s.insertMultiAlign ma false).utgCache) ma.maID = none := by
    rw [insertMultiAlign_cacheAt_self]
    rfl
  have hacc : (s.insertMultiAlign ma false).unitigPart = 0 ∨
      (recAt ((s.insertMultiAlign ma false).utgRecord) ma.maID).ptID =
        (s.insertMultiAlign ma false).unitigPart := by
    by_cases h0 : s.unitigPart = 0
    · exact Or.inl h0
    · refine Or.inr ?_
      rw [hrec]
      show bitfieldStore 10 (s.effectivePartition ma.maID) = s.unitigPart
      unfold bitfieldStore
      rw [Nat.mod_eq_of_lt hp]
      unfold Store.effectivePartition
      rw [if_pos h0]
  rw [loadMultiAlign_from_file _ ma.maID hacc hcache (by rw [hrec]) (by rw [hrec])]
  rw [hrec]
  show ((assocGet [] (s.insertMultiAlign ma false).files
      (bitfieldStore 10 s.currentVersion,
       bitfieldStore 10 (s.effectivePartition ma.maID))).get?
      (bitfieldStore 40 (assocGet [] s.files
        (s.currentVersion, s.effectivePartition ma.maID)).length)).map
      serializeMA = some (serializeMA ma)
  unfold bitfieldStore
  rw [Nat.mod_eq_of_lt hv, Nat.mod_eq_of_lt hp, Nat.mod_eq_of_lt hoff,
    insertMultiAlign_files_self, List.get?_concat_length]
  rfl

/-- C5 witness: the scenario unitig round-trips through an uncached
insert and a load. -/
theorem insert_load_roundtrip_witness :
    (((Store.createStore none).insertMultiAlign exMA5 false).loadMultiAlign
      exMA5.maID).map serializeMA = some (serializeMA exMA5) :=
  insert_load_roundtrip (Store.createStore none) exMA5 (by decide) (by decide)
    (by decide)

/-! ### Claim C6: consolidation on an unpartitioned open -/

/-- C6: opening unpartitioned at a version merges the per-partition
metadata files by selecting, for each ID, the owning partition's entry
when its `versionID` is the requested version and its `partitionID` is
the owning partition, falling back to not-present; with partitions 1
and 2 holding the ID sets `S1` and `S2` at that version, loads are
non-null for every ID of `S1 ∪ S2` and null for IDs no partition
claims. -/
theorem openUnpartitioned_consolidation (version : Nat) (partMap : List Nat)
    (T1 T2 : List MultiAlignR) (len : Nat) (S1 S2 : List Nat)
    (files : List ((Nat × Nat) × List MultiAlignT))
    (h1 : ∀ i ∈ S1, i < len ∧ Store.partOf partMap i = 1 ∧
      (recAt T1 i).svID = version ∧ (recAt T1 i).ptID = 1 ∧
      (recAt T1 i).isPresent = true ∧ (recAt T1 i).isDeleted = false ∧
      ((assocGet [] files ((recAt T1 i).svID, (recAt T1 i).ptID)).get?
        (recAt T1 i).fileOffset).isSome = true)
    (h2 : ∀ i ∈ S2, i < len ∧ Store.partOf partMap i = 2 ∧
      (recAt T2 i).svID = version ∧ (recAt T2 i).ptID = 2 ∧
      (recAt T2 i).isPresent = true ∧ (recAt T2 i).isDeleted = false ∧
      ((assocGet [] files ((recAt T2 i).svID, (recAt T2 i).ptID)).get?
        (recAt T2 i).fileOffset).isSome = true)
    (h3 : ∀ i, i < len → i ∉ S1 → i ∉ S2 →
      (recAt T1 i).isPresent = false ∧ (recAt T2 i).isPresent = false) :
    (∀ i ∈ S1,
      recAt ((openUnpartitioned version partMap [(1, T1), (2, T2)] len
        files).utgRecord) i = recAt T1 i) ∧
    (∀ i ∈ S2,
      recAt ((openUnpartitioned version partMap [(1, T1), (2, T2)] len
        files).utgRecord) i = recAt T2 i) ∧
    (∀ i, i ∈ S1 ∨ i ∈ S2 →
      ((openUnpartitioned version partMap [(1, T1), (2, T2)] len
        files).loadMultiAlign i).isSome = true) ∧
    (∀ i, i ∉ S1 → i ∉ S2 →
      (openUnpartitioned version partMap [(1, T1), (2, T2)] len
        files).loadMultiAlign i = none) := by
  have hsel1 : ∀ i ∈ S1,
      recAt ((openUnpartitioned version partMap [(1, T1), (2, T2)] len
        files).utgRecord) i = recAt T1 i := by
    intro i hi
    obtain ⟨hlen, hpm, hsv, hpt, _, _, _⟩ := h1 i hi
    show recAt (consolidate version partMap [(1, T1), (2, T2)] len) i = recAt T1 i
    rw [recAt_consolidate _ _ _ _ _ hlen]
    unfold ownEntry
    rw [hpm]
    show (match lookupTable [(1, T1), (2, T2)] 1 with
      | none => MultiAlignR.blank
      | some tbl =>
        if (recAt tbl i).svID = version ∧ (recAt tbl i).ptID = 1
        then recAt tbl i else MultiAlignR.blank) = recAt T1 i
    have hl : lookupTable [(1, T1), (2, T2)] 1 = some T1 := rfl
    rw [hl]
    exact if_pos ⟨hsv, hpt⟩
  have hsel2 : ∀ i ∈ S2,
      recAt ((openUnpartitioned version partMap [(1, T1), (2, T2)] len
        files).utgRecord) i = recAt T2 i := by
    intro i hi
    obtain ⟨hlen, hpm, hsv, hpt, _, _, _⟩ := h2 i hi
    show recAt (consolidate version partMap [(1, T1), (2, T2)] len) i = recAt T2 i
    rw [recAt_consolidate _ _ _ _ _ hlen]
    unfold ownEntry
    rw [hpm]
    show (match lookupTable [(1, T1), (2, T2)] 2 with
      | none => MultiAlignR.blank
      | some tbl =>
        if (recAt tbl i).svID = version ∧ (recAt tbl i).ptID = 2
        then recAt tbl i else MultiAlignR.blank) = recAt T2 i
    have hl : lookupTable [(1, T1), (2, T2)] 2 = some T2 := rfl
    rw [hl]
    exact if_pos ⟨hsv, hpt⟩
  refine ⟨hsel1, hsel2, ?_, ?_⟩
  · intro i hi
    have hcn : cacheAt ((openUnpartitioned version partMap [(1, T1), (2, T2)]
        len files).utgCache) i = none := by
      cases i <;> rfl
    rcases hi with hi | hi
    · obtain ⟨hlen, hpm, hsv, hpt, hpres, hdel, hfile⟩ := h1 i hi
      rw [loadMultiAlign_from_file _ i (Or.inl rfl) hcn
        (by rw [hsel1 i hi]; exact hpres) (by rw [hsel1 i hi]; exact hdel)]
      rw [hsel1 i hi]
      exact hfile
    · obtain ⟨hlen, hpm, hsv, hpt, hpres, hdel, hfile⟩ := h2 i hi
      rw [loadMultiAlign_from_file _ i (Or.inl rfl) hcn
        (by rw [hsel2 i hi]; exact hpres) (by rw [hsel2 i hi]; exact hdel)]
      rw [hsel2 i hi]
      exact hfile
  · intro i hi1 hi2
    have hcn : cacheAt ((openUnpartitioned version partMap [(1, T1), (2, T2)]
        len files).utgCache) i = none := by
      cases i <;> rfl
    apply loadMultiAlign_not_live_none _ i hcn
    left
    show (recAt (consolidate version partMap [(1, T1), (2, T2)] len) i).isPresent
      = false
    by_cases hlen : i < len
    · rw [recAt_consolidate _ _ _ _ _ hlen]
      obtain ⟨hp1, hp2⟩ := h3 i hlen hi1 hi2
      unfold ownEntry
      by_cases e1 : Store.partOf partMap i = 1
      · rw [e1]
        show (match lookupTable [(1, T1), (2, T2)] 1 with
          | none => MultiAlignR.blank
          | some tbl =>
            if (recAt tbl i).svID = version ∧ (recAt tbl i).ptID = 1
            then recAt tbl i else MultiAlignR.blank).isPresent = false
        have hl : lookupTable [(1, T1), (2, T2)] 1 = some T1 := rfl
        rw [hl]
        simp only
        split
        · exact hp1
        · rfl
      · by_cases e2 : Store.partOf partMap i = 2
        · rw [e2]
          show (match lookupTable [(1, T1), (2, T2)] 2 with
            | none => MultiAlignR.blank
            | some tbl =>
              if (recAt tbl i).svID = version ∧ (recAt tbl i).ptID = 2
              then recAt tbl i else MultiAlignR.blank).isPresent = false
          have hl : lookupTable [(1, T1), (2, T2)] 2 = some T2 := rfl
          rw [hl]
          simp only
          split
          · exact hp2
          · rfl
        · have hl : lookupTable [(1, T1), (2, T2)] (Store.partOf partMap i)
              = none := by
            show (if (1 : Nat) = Store.partOf partMap i then some T1
              else if (2 : Nat) = Store.partOf partMap i then some T2
              else none) = none
            rw [if_neg (fun hcon => e1 hcon.symm),
              if_neg (fun hcon => e2 hcon.symm)]
          show (match lookupTable [(1, T1), (2, T2)] (Store.partOf partMap i) with
            | none => MultiAlignR.blank
            | some tbl =>
              if (recAt tbl i).svID = version ∧
                 (recAt tbl i).ptID = Store.partOf partMap i
              then recAt tbl i else MultiAlignR.blank).isPresent = false
          rw [hl]
          rfl
    · rw [recAt_consolidate_ge _ _ _ _ _ (by omega)]
      rfl

/-- C6 witness: partitions 1 and 2 own IDs 0 and 1 at version 3; the
unpartitioned open loads both and returns null for the unwritten ID 2. -/
theorem openUnpartitioned_consolidation_witness :
    (exMerged.loadMultiAlign 0).isSome = true ∧
    (exMerged.loadMultiAlign 1).isSome = true ∧
    exMerged.loadMultiAlign 2 = none := by
  have h := openUnpartitioned_consolidation 3 [1, 2] exT1 exT2 3 [0] [1] exFiles
    (by decide) (by decide) (by decide)
  exact ⟨h.2.2.1 0 (Or.inl (by decide)), h.2.2.1 1 (Or.inr (by decide)),
    h.2.2.2 2 (by decide) (by decide)⟩

/-! ### Claim C7: most-recent-write invariant and version monotonicity -/

/-- An insert with the restriction inactive makes the inserted ID load
back as the inserted object (cache hit when kept, file read when not). -/
theorem insertMultiAlign_load_self (s : Store) (ma : MultiAlignT) (keep : Bool)
    (hv : s.currentVersion < 2 ^ 10)
    (hp : s.effectivePartition ma.maID < 2 ^ 10)
    (hoff : (assocGet [] s.files
      (s.currentVersion, s.effectivePartition ma.maID)).length < 2 ^ 40)
    (h0 : s.unitigPart = 0) :
    (s.insertMultiAlign ma keep).loadMultiAlign ma.maID = some ma := by
  cases keep
  · have hrec := insertMultiAlign_recAt_self s ma false
    have hcache : cacheAt ((s.insertMultiAlign ma false).utgCache) ma.maID
        = none := by
      rw [insertMultiAlign_cacheAt_self]
      rfl
    rw [loadMultiAlign_from_file (s.insertMultiAlign ma false) ma.maID
      (Or.inl h0) hcache (by rw [hrec]) (by rw [hrec])]
    rw [hrec]
    show (assocGet [] (s.insertMultiAlign ma false).files
      (bitfieldStore 10 s.currentVersion,
       bitfieldStore 10 (s.effectivePartition ma.maID))).get?
      (bitfieldStore 40 (assocGet [] s.files
        (s.currentVersion, s.effectivePartition ma.maID)).length) = some ma
    unfold bitfieldStore
    rw [Nat.mod_eq_of_lt hv, Nat.mod_eq_of_lt hp, Nat.mod_eq_of_lt hoff,
      insertMultiAlign_files_self, List.get?_concat_length]
  · exact loadMultiAlign_cache_hit _ ma.maID ma (Or.inl h0)
      (by rw [insertMultiAlign_cacheAt_self]; rfl)

/-- C7: after an insert, the inserted ID's metadata record holds exactly
the version, partition and end-of-file offset of that write (the most
recent one), the data file holds the object at that offset, and every
other record is unchanged; after `nextVersion()`, every load is
unchanged — an ID not rewritten in the new version still resolves
through the version recorded in its metadata, in particular the
just-inserted object is still returned. -/
theorem most_recent_write_invariant (s : Store) (ma : MultiAlignT) (keep : Bool)
    (hv : s.currentVersion < 2 ^ 10)
    (hp : s.effectivePartition ma.maID < 2 ^ 10)
    (hoff : (assocGet [] s.files
      (s.currentVersion, s.effectivePartition ma.maID)).length < 2 ^ 40) :
    (recAt ((s.insertMultiAlign ma keep).utgRecord) ma.maID =
      { mad := ma.data
        isPresent := true
        isDeleted := false
        ptID := s.effectivePartition ma.maID
        svID := s.currentVersion
        fileOffset := (assocGet [] s.files
          (s.currentVersion, s.effectivePartition ma.maID)).length }) ∧
    ((assocGet [] ((s.insertMultiAlign ma keep).files)
        (s.currentVersion, s.effectivePartition ma.maID)).get?
        (assocGet [] s.files
          (s.currentVersion, s.effectivePartition ma.maID)).length =
      some ma) ∧
    (∀ j, j ≠ ma.maID → j < s.utgRecord.length →
      recAt ((s.insertMultiAlign ma keep).utgRecord) j = recAt s.utgRecord j) ∧
    (∀ t, (s.insertMultiAlign ma keep).nextVersion = .ok t →
      (∀ i, t.loadMultiAlign i =
        (s.insertMultiAlign ma keep).loadMultiAlign i) ∧
      (s.unitigPart = 0 → t.loadMultiAlign ma.maID = some ma)) := by
  refine ⟨?_, ?_, ?_, ?_⟩
  · rw [insertMultiAlign_recAt_self]
    unfold bitfieldStore
    rw [Nat.mod_eq_of_lt hv, Nat.mod_eq_of_lt hp, Nat.mod_eq_of_lt hoff]
  · rw [insertMultiAlign_files_self, List.get?_concat_length]
  · intro j hj hjl
    unfold Store.insertMultiAlign
    simp only
    unfold recAt
    rw [getAtD_setAt_ne _ _ _ _ _ (fun hcon => hj hcon.symm)]
    exact getAtD_growTo_lt _ _ _ _ hjl
  · intro t ht
    unfold Store.nextVersion at ht
    cases hb : (s.insertMultiAlign ma keep).isPartitioned
    · rw [hb] at ht
      simp only [Bool.false_eq_true, if_false, Except.ok.injEq] at ht
      subst ht
      refine ⟨fun i => rfl, ?_⟩
      intro h0
      show (s.insertMultiAlign ma keep).loadMultiAlign ma.maID = some ma
      exact insertMultiAlign_load_self s ma keep hv hp hoff h0
    · rw [hb] at ht
      simp at ht

/-- C7 witness: insert unitig 5 at version 1, advance to version 2; the
record points at version 1 offset 0 and the load still returns the
object. -/
theorem most_recent_write_invariant_witness :
    recAt exInserted.utgRecord 5 =
      { mad := exMA5.data
        isPresent := true
        isDeleted := false
        ptID := 0
        svID := 1
        fileOffset := 0 } ∧
    exAdvanced.loadMultiAlign 5 = some exMA5 := by
  have h := most_recent_write_invariant (Store.createStore none) exMA5 false
    (by decide) (by decide) (by decide)
  exact ⟨h.1, (h.2.2.2 exAdvanced rfl).2 rfl⟩

/-! ### Claim C8: growth safety of inserts beyond the table length -/

/-- C8: inserting an object with ID `k` at or beyond the current table
length `L` grows the table to length `k + 1`, leaves every record below
`L` unchanged, and zero-initializes the records in `[L, k)`, which read
back not-present and load as null. -/
theorem insert_growth_safety (s : Store) (ma : MultiAlignT) (keep : Bool)
    (hk : s.utgRecord.length ≤ ma.maID)
    (hc : s.utgCache.length ≤ s.utgRecord.length) :
    (s.insertMultiAlign ma keep).utgRecord.length = ma.maID + 1 ∧
    (∀ i, i < s.utgRecord.length →
      recAt ((s.insertMultiAlign ma keep).utgRecord) i = recAt s.utgRecord i) ∧
    (∀ i, s.utgRecord.length ≤ i → i < ma.maID →
      recAt ((s.insertMultiAlign ma keep).utgRecord) i = MultiAlignR.blank ∧
      (recAt ((s.insertMultiAlign ma keep).utgRecord) i).isPresent = false ∧
      (s.insertMultiAlign ma keep).loadMultiAlign i = none) := by
  refine ⟨?_, ?_, ?_⟩
  · unfold Store.insertMultiAlign
    simp only
    rw [length_setAt, length_growTo]
    exact Nat.max_eq_right (by omega)
  · intro i hi
    unfold Store.insertMultiAlign
    simp only
    unfold recAt
    rw [getAtD_setAt_ne _ _ _ _ _ (by omega)]
    exact getAtD_growTo_lt _ _ _ _ hi
  · intro i hge hlt
    have hblank : recAt ((s.insertMultiAlign ma keep).utgRecord) i =
        MultiAlignR.blank := by
      unfold Store.insertMultiAlign
      simp only
      unfold recAt
      rw [getAtD_setAt_ne _ _ _ _ _ (by omega)]
      exact getAtD_growTo_ge _ _ _ _ hge
    have hcn : cacheAt ((s.insertMultiAlign ma keep).utgCache) i = none := by
      unfold Store.insertMultiAlign
      simp only
      unfold cacheAt
      rw [getAtD_setAt_ne _ _ _ _ _ (by omega)]
      exact getAtD_growTo_ge _ _ _ _ (by omega)
    refine ⟨hblank, by rw [hblank]; rfl, ?_⟩
    apply loadMultiAlign_not_live_none _ i hcn
    left
    rw [hblank]
    rfl

/-- C8 witness: inserting ID 5 into the empty table grows it to length 6
with IDs 0-4 not present and loading as null. -/
theorem insert_growth_safety_witness :
    exInserted.utgRecord.length = 6 ∧
    (recAt exInserted.utgRecord 2).isPresent = false ∧
    exInserted.loadMultiAlign 2 = none := by
  have h := insert_growth_safety (Store.createStore none) exMA5 false
    (by decide) (by decide)
  exact ⟨h.1, (h.2.2 2 (by decide) (by decide)).2.1,
    (h.2.2 2 (by decide) (by decide)).2.2⟩

/-! ### Claim C9: bit-field widths and the configuration bound check -/

/-- C9: the metadata record's `partitionID` and `versionID` occupy 10
bits and `fileOffset` 40 bits — every record written by an insert has
them below `2^10`, `2^10` and `2^40`; and the store-creation
configuration check rejects a version, partition count or file size
beyond those bounds as a `ConfigurationError`, while accepting any
in-range configuration, whose values are then stored without
wraparound. -/
theorem bitfield_bounds_config (v p off : Nat) (s : Store) (ma : MultiAlignT)
    (keep : Bool) :
    ((recAt ((s.insertMultiAlign ma keep).utgRecord) ma.maID).ptID < 2 ^ 10 ∧
     (recAt ((s.insertMultiAlign ma keep).utgRecord) ma.maID).svID < 2 ^ 10 ∧
     (recAt ((s.insertMultiAlign ma keep).utgRecord) ma.maID).fileOffset
       < 2 ^ 40) ∧
    (checkStoreConfig v p off = .error .ConfigurationError ↔
      2 ^ 10 ≤ v ∨ 2 ^ 10 ≤ p ∨ 2 ^ 40 ≤ off) ∧
    (v < 2 ^ 10 → p < 2 ^ 10 → off < 2 ^ 40 →
      checkStoreConfig v p off = .ok () ∧
      bitfieldStore 10 v = v ∧ bitfieldStore 10 p = p ∧
      bitfieldStore 40 off = off) := by
  refine ⟨?_, ?_, ?_⟩
  · rw [insertMultiAlign_recAt_self]
    exact ⟨Nat.mod_lt _ (by norm_num), Nat.mod_lt _ (by norm_num),
      Nat.mod_lt _ (by norm_num)⟩
  · unfold checkStoreConfig
    by_cases hb : 2 ^ 10 ≤ v ∨ 2 ^ 10 ≤ p ∨ 2 ^ 40 ≤ off
    · rw [if_pos hb]
      exact iff_of_true rfl hb
    · rw [if_neg hb]
      exact iff_of_false (by simp) hb
  · intro h1 h2 h3
    have hb : ¬(2 ^ 10 ≤ v ∨ 2 ^ 10 ≤ p ∨ 2 ^ 40 ≤ off) := by
      push_neg
      exact ⟨h1, h2, h3⟩
    unfold checkStoreConfig bitfieldStore
    rw [if_neg hb, Nat.mod_eq_of_lt h1, Nat.mod_eq_of_lt h2,
      Nat.mod_eq_of_lt h3]
    exact ⟨rfl, rfl, rfl, rfl⟩

/-- C9 witness: an in-range configuration is accepted and stored without
wraparound; version 1024 is rejected as a configuration error; and the
scenario insert's record fields are within the field widths. -/
theorem bitfield_bounds_config_witness :
    (recAt exInserted.utgRecord 5).svID < 2 ^ 10 ∧
    checkStoreConfig 3 2 7 = .ok () ∧
    bitfieldStore 10 3 = 3 ∧
    checkStoreConfig 1024 0 0 = .error .ConfigurationError := by
  have h := bitfield_bounds_config 3 2 7 (Store.createStore none) exMA5 false
  have h2 := bitfield_bounds_config 1024 0 0 (Store.createStore none) exMA5 false
  exact ⟨h.1.2.1, (h.2.2 (by decide) (by decide) (by decide)).1,
    (h.2.2 (by decide) (by decide) (by decide)).2.1,
    h2.2.1.mpr (Or.inl (by decide))⟩

/-! ### Claim C10: the direct scalar accessors are unchecked -/

/-- C10: every direct scalar accessor and mutator indexes the metadata
table with no bounds check — under the precondition `maID <
numUnitigs()` (resp. `numContigs()`) the out-of-bounds branch (`none`,
undefined behaviour in C) is unreachable and the accessor returns the
stored summary value with no `isPresent`/`isDeleted` check (so
never-present or deleted IDs yield their stored, possibly
zero-initialized or stale, values); beyond the precondition every
accessor and mutator hits the out-of-bounds branch. -/
theorem direct_accessors_unchecked (s : Store) (i : Nat) (v w : ℚ)
    (u : UnitigStatus) (f : UnitigFUR) (c : ContigPlacementStatusType) :
    (i < s.numUnitigs →
      s.getUnitigCoverageStat i =
        some (cIntTrunc (recAt s.utgRecord i).mad.unitig_coverage_stat) ∧
      s.getUnitigMicroHetProb i =
        some (recAt s.utgRecord i).mad.unitig_microhet_prob ∧
      s.getUnitigStatus i = some (recAt s.utgRecord i).mad.unitig_status ∧
      s.getUnitigFUR i = some (recAt s.utgRecord i).mad.unitig_unique_rept ∧
      s.getNumFrags i true = some (recAt s.utgRecord i).mad.num_frags ∧
      s.getNumUnitigs i true = some (recAt s.utgRecord i).mad.num_unitigs ∧
      (s.setUnitigCoverageStat i v).isSome = true ∧
      (s.setUnitigMicroHetProb i w).isSome = true ∧
      (s.setUnitigStatus i u).isSome = true ∧
      (s.setUnitigFUR i f).isSome = true) ∧
    (s.numUnitigs ≤ i →
      s.getUnitigCoverageStat i = none ∧
      s.getUnitigMicroHetProb i = none ∧
      s.getUnitigStatus i = none ∧
      s.getUnitigFUR i = none ∧
      s.getNumFrags i true = none ∧
      s.getNumUnitigs i true = none ∧
      s.setUnitigCoverageStat i v = none ∧
      s.setUnitigMicroHetProb i w = none ∧
      s.setUnitigStatus i u = none ∧
      s.setUnitigFUR i f = none) ∧
    (i < s.numContigs →
      s.getContigStatus i = some (recAt s.ctgRecord i).mad.contig_status ∧
      s.getNumFrags i false = some (recAt s.ctgRecord i).mad.num_frags ∧
      s.getNumUnitigs i false = some (recAt s.ctgRecord i).mad.num_unitigs ∧
      (s.setContigStatus i c).isSome = true) ∧
    (s.numContigs ≤ i →
      s.getContigStatus i = none ∧
      s.getNumFrags i false = none ∧
      s.getNumUnitigs i false = none ∧
      s.setContigStatus i c = none) := by
  have hu := get?_eq_some_getAtD MultiAlignR.blank s.utgRecord i
  have hc2 := get?_eq_some_getAtD MultiAlignR.blank s.ctgRecord i
  refine ⟨?_, ?_, ?_, ?_⟩
  · intro hpre
    have h : i < s.utgRecord.length := hpre
    refine ⟨?_, ?_, ?_, ?_, ?_, ?_, ?_, ?_, ?_, ?_⟩
    · show (s.utgRecord.get? i).map _ = _
      rw [hu h]
      rfl
    · show (s.utgRecord.get? i).map _ = _
      rw [hu h]
      rfl
    · show (s.utgRecord.get? i).map _ = _
      rw [hu h]
      rfl
    · show (s.utgRecord.get? i).map _ = _
      rw [hu h]
      rfl
    · show (s.utgRecord.get? i).map _ = _
      rw [hu h]
      rfl
    · show (s.utgRecord.get? i).map _ = _
      rw [hu h]
      rfl
    · unfold Store.setUnitigCoverageStat
      rw [if_pos h]
      rfl
    · unfold Store.setUnitigMicroHetProb
      rw [if_pos h]
      rfl
    · unfold Store.setUnitigStatus
      rw [if_pos h]
      rfl
    · unfold Store.setUnitigFUR
      rw [if_pos h]
      rfl
  · intro hpre
    have h : s.utgRecord.length ≤ i := hpre
    have hn := get?_eq_none_of_le s.utgRecord i h
    refine ⟨?_, ?_, ?_, ?_, ?_, ?_, ?_, ?_, ?_, ?_⟩
    · show (s.utgRecord.get? i).map _ = _
      rw [hn]
      rfl
    · show (s.utgRecord.get? i).map _ = _
      rw [hn]
      rfl
    · show (s.utgRecord.get? i).map _ = _
      rw [hn]
      rfl
    · show (s.utgRecord.get? i).map _ = _
      rw [hn]
      rfl
    · show (s.utgRecord.get? i).map _ = _
      rw [hn]
      rfl
    · show (s.utgRecord.get? i).map _ = _
      rw [hn]
      rfl
    · unfold Store.setUnitigCoverageStat
      rw [if_neg (by omega)]
    · unfold Store.setUnitigMicroHetProb
      rw [if_neg (by omega)]
    · unfold Store.setUnitigStatus
      rw [if_neg (by omega)]
    · unfold Store.setUnitigFUR
      rw [if_neg (by omega)]
  · intro hpre
    have h : i < s.ctgRecord.length := hpre
    refine ⟨?_, ?_, ?_, ?_⟩
    · show (s.ctgRecord.get? i).map _ = _
      rw [hc2 h]
      rfl
    · show (s.ctgRecord.get? i).map _ = _
      rw [hc2 h]
      rfl
    · show (s.ctgRecord.get? i).map _ = _
      rw [hc2 h]
      rfl
    · unfold Store.setContigStatus
      rw [if_pos h]
      rfl
  · intro hpre
    have h : s.ctgRecord.length ≤ i := hpre
    have hn := get?_eq_none_of_le s.ctgRecord i h
    refine ⟨?_, ?_, ?_, ?_⟩
    · show (s.ctgRecord.get? i).map _ = _
      rw [hn]
      rfl
    · show (s.ctgRecord.get? i).map _ = _
      rw [hn]
      rfl
    · show (s.ctgRecord.get? i).map _ = _
      rw [hn]
      rfl
    · unfold Store.setContigStatus
      rw [if_neg (by omega)]

/-- C10 witness: on the scenario store with six unitig records and no
contig records, ID 5 is readable (not-present IDs included) and ID 9 is
out of bounds for every accessor. -/
theorem direct_accessors_unchecked_witness :
    (exInserted.getUnitigCoverageStat 5 =
      some (cIntTrunc (recAt exInserted.utgRecord 5).mad.unitig_coverage_stat) ∧
     exInserted.getUnitigStatus 5 =
      some (recAt exInserted.utgRecord 5).mad.unitig_status) ∧
    exInserted.getUnitigCoverageStat 9 = none ∧
    exInserted.getContigStatus 0 = none := by
  have h5 := direct_accessors_unchecked exInserted 5 0 0 .AS_UNASSIGNED
    .AS_FORCED_NONE .AS_UNPLACED
  have h9 := direct_accessors_unchecked exInserted 9 0 0 .AS_UNASSIGNED
    .AS_FORCED_NONE .AS_UNPLACED
  have h0 := direct_accessors_unchecked exInserted 0 0 0 .AS_UNASSIGNED
    .AS_FORCED_NONE .AS_UNPLACED
  exact ⟨⟨(h5.1 (by decide)).1, (h5.1 (by decide)).2.2.1⟩,
    (h9.2.1 (by decide)).1, (h0.2.2.2 (by decide)).1⟩

end MAS
